import Mathlib

/-!
Pitch Tracker: session state and derived statistics.

A shallow embedding of `app.js`.  The script keeps one mutable record `state`
(game, lineup, pitcher, active batter id, pitch log) and one transient record
`pending`.  Each handler is a function on `World`, the pair of those two records
together with the messages shown through `alert`.

What is outside the model: the DOM text written by `render`, `setStatus` and
`clearPending` (none of them writes `state`), and the content of `localStorage`.
`Date.now()` and `newId()` are arguments of the handlers that call them.

The write `localStorage.setItem` in `saveState` can throw.  In `removeBatter`,
`undoLast` and the button handlers, `saveState()` comes after the last write to
`state`, so the globals these calls leave are the same whether the write throws
or not; they are functions from `World` to `World`, the globals the call leaves.
In `logPitch` the write stands between `push` and `clearPending`, so `logPitch`
takes what `setItem` throws as an argument and ends in an `Outcome`.
-/

namespace PitchTracker

/-! ## Data model -/

/-- A JavaScript number as `Number(string)` produces it: `NaN`, an infinity, or the
mathematical value `(-1)^negative * mantissa * 10^exp10` of a numeric literal.  The
engine stores the binary64 nearest to that value; that rounding is not modelled. -/
inductive JSNumber where
  | nan
  | infinity (negative : Bool)
  | decimal (negative : Bool) (mantissa : Nat) (exp10 : Int)
  deriving DecidableEq, Repr

/-- The game record `{id, opponent, field, createdAt}`. -/
structure Game where
  id : String
  opponent : String
  field : String
  createdAt : Nat
  deriving DecidableEq, Repr

/-- A lineup entry `{id, num, name, bats}`. -/
structure LineupEntry where
  id : String
  num : JSNumber
  name : String
  bats : String
  deriving DecidableEq, Repr

/-- The pitcher record `{name}`. -/
structure Pitcher where
  name : String
  deriving DecidableEq, Repr

/-- A logged pitch `{t, pitcher, batterId, pitch, zone, result}`. -/
structure PitchEvent where
  t : Nat
  pitcher : String
  batterId : String
  pitch : String
  zone : Nat
  result : String
  deriving DecidableEq, Repr

/-- The persisted session record; `none` stands for `null`. -/
structure State where
  game : Option Game
  lineup : List LineupEntry
  pitcher : Option Pitcher
  batterId : Option String
  pitches : List PitchEvent
  deriving DecidableEq, Repr

/-- The transient selection `{pitch, zone, result}`. -/
structure Pending where
  pitch : Option String
  zone : Option Nat
  result : Option String
  deriving DecidableEq, Repr

/-- The script's globals `state` and `pending`, and the messages passed to `alert`,
oldest first. -/
structure World where
  state : State
  pending : Pending
  alerts : List String
  deriving DecidableEq, Repr

/-- How a handler call ends: it returns, or an exception escapes it.  Either way the
globals are left as they were at that moment. -/
inductive Outcome where
  | returned (w : World)
  | threw (error : String) (w : World)
  deriving DecidableEq, Repr

def PITCH_TYPES : List String := ["FB", "2S", "CH", "SL", "CB", "CUT"]

def RESULTS : List String :=
  ["Ball", "CStr", "SwStr", "Foul", "InPlay-Out", "1B", "2B", "3B", "HR"]

def defaultState : State :=
  { game := none, lineup := [], pitcher := none, batterId := none, pitches := [] }

/-! ## Helpers -/

/-- Truthiness of a value that is `null` or a string: only `null` and `""` are falsy. -/
def truthyString : Option String → Bool
  | none => false
  | some s => decide (s ≠ "")

/-- The call `alert(msg)`. -/
def alert (msg : String) (w : World) : World :=
  { w with alerts := w.alerts ++ [msg] }

/-- The assignment in `clearPending`. -/
def clearPending (w : World) : World :=
  { w with pending := { pitch := none, zone := none, result := none } }

/-- Truthiness of `state.game`: an object is truthy, `null` is not. -/
def ensureGame (state : State) : Bool :=
  state.game.isSome

/-- The check `ensureLiveSelection`: the message to show, or `none` for `null`. -/
def ensureLiveSelection (state : State) : Option String :=
  if !truthyString (state.pitcher.map Pitcher.name) then some "Set a pitcher first."
  else if !truthyString state.batterId then some "Set a batter first."
  else none

/-- The lookup `state.lineup.find(b => b.id === state.batterId) || null`. -/
def currentBatter (state : State) : Option LineupEntry :=
  state.lineup.find? (fun b => decide (some b.id = state.batterId))

/-! ## String to number conversion -/

/-- The code points `trim` strips and `Number` skips: WhiteSpace and LineTerminator. -/
def isStrWhiteSpaceChar (c : Char) : Bool :=
  decide (c.toNat ∈ [0x9, 0xA, 0xB, 0xC, 0xD, 0x20, 0xA0, 0x1680, 0x2028, 0x2029,
    0x202F, 0x205F, 0x3000, 0xFEFF]) || decide (0x2000 ≤ c.toNat ∧ c.toNat ≤ 0x200A)

def trimChars (cs : List Char) : List Char :=
  ((cs.dropWhile isStrWhiteSpaceChar).reverse.dropWhile isStrWhiteSpaceChar).reverse

/-- The method `String.prototype.trim`. -/
def trim (s : String) : String :=
  String.mk (trimChars s.data)

/-- Value of a digit character, letters `a`-`f` and `A`-`F` counting as 10 to 15. -/
def digitValue (c : Char) : Option Nat :=
  let n := c.toNat
  if 48 ≤ n ∧ n ≤ 57 then some (n - 48)
  else if 97 ≤ n ∧ n ≤ 102 then some (n - 87)
  else if 65 ≤ n ∧ n ≤ 70 then some (n - 55)
  else none

def isDigitOfBase (base : Nat) (c : Char) : Bool :=
  match digitValue c with
  | some d => decide (d < base)
  | none => false

def natOfDigits (base : Nat) (cs : List Char) : Nat :=
  cs.foldl (fun acc c => acc * base + (digitValue c).getD 0) 0

/-- A non-empty run of decimal digits, as a number. -/
def decimalDigits (cs : List Char) : Option Nat :=
  if cs ≠ [] ∧ cs.all (isDigitOfBase 10) = true then some (natOfDigits 10 cs) else none

/-- The production SignedInteger. -/
def signedInteger : List Char → Option Int
  | [] => none
  | c :: cs =>
    if c = '+' then (decimalDigits cs).map Int.ofNat
    else if c = '-' then (decimalDigits cs).map (fun n => -Int.ofNat n)
    else (decimalDigits (c :: cs)).map Int.ofNat

/-- An optional ExponentPart that must use up the rest of the literal. -/
def exponentPart : List Char → Option Int
  | [] => some 0
  | c :: cs => if c = 'e' ∨ c = 'E' then signedInteger cs else none

/-- The production StrUnsignedDecimalLiteral, with the sign read before it. -/
def strUnsignedDecimalLiteral (negative : Bool) (cs : List Char) : JSNumber :=
  if cs = "Infinity".data then .infinity negative
  else
    let ip := cs.takeWhile (isDigitOfBase 10)
    match cs.dropWhile (isDigitOfBase 10) with
    | [] => if ip = [] then .nan else .decimal negative (natOfDigits 10 ip) 0
    | c :: rest =>
      if c = '.' then
        let fp := rest.takeWhile (isDigitOfBase 10)
        if ip = [] ∧ fp = [] then .nan
        else
          match exponentPart (rest.dropWhile (isDigitOfBase 10)) with
          | none => .nan
          | some e => .decimal negative (natOfDigits 10 (ip ++ fp)) (e - Int.ofNat fp.length)
      else if ip = [] then .nan
      else
        match exponentPart (c :: rest) with
        | none => .nan
        | some e => .decimal negative (natOfDigits 10 ip) e

/-- The production NonDecimalIntegerLiteral: `0x`, `0o` or `0b` and digits of that base. -/
def nonDecimalIntegerLiteral : List Char → Option Nat
  | z :: m :: ds =>
    let base : Nat :=
      if m = 'x' ∨ m = 'X' then 16 else if m = 'o' ∨ m = 'O' then 8
      else if m = 'b' ∨ m = 'B' then 2 else 0
    if z = '0' ∧ base ≠ 0 ∧ ds ≠ [] ∧ ds.all (isDigitOfBase base) = true then
      some (natOfDigits base ds)
    else none
  | _ => none

/-- The production StrNumericLiteral. -/
def strNumericLiteral (cs : List Char) : JSNumber :=
  match nonDecimalIntegerLiteral cs with
  | some n => .decimal false n 0
  | none =>
    match cs with
    | [] => .nan
    | c :: rest =>
      if c = '+' then strUnsignedDecimalLiteral false rest
      else if c = '-' then strUnsignedDecimalLiteral true rest
      else strUnsignedDecimalLiteral false (c :: rest)

/-- The call `Number(s)` on a string: white space around the literal is skipped, the
empty string is `0`, and anything that is not a numeric literal is `NaN`. -/
def Number (s : String) : JSNumber :=
  match trimChars s.data with
  | [] => .decimal false 0 0
  | c :: cs => strNumericLiteral (c :: cs)

def isNaN : JSNumber → Bool
  | .nan => true
  | _ => false

/-! ## Actions -/

/-- The function `removeBatter(id)`. -/
def removeBatter (id : String) (w : World) : World :=
  let lineup := w.state.lineup.filter (fun b => decide (b.id ≠ id))
  let batterId := if w.state.batterId = some id then none else w.state.batterId
  { w with state := { w.state with lineup := lineup, batterId := batterId } }

/-- The function `saveState()`, seen from its caller: `saveError` is the exception
that `localStorage.setItem` throws, `none` when the write goes through. -/
def saveState (saveError : Option String) (w : World) : Outcome :=
  match saveError with
  | none => .returned w
  | some e => .threw e w

/-- The function `logPitch()`, with `now` the value of `Date.now()` and `saveError`
what the write in `saveState()` throws.  The object literal reads `state.pitcher.name`
and `batter.id` before `push` runs, so a `null` there throws a `TypeError` with the log
untouched.  An exception from `saveState()` escapes after `push` and before
`clearPending()`. -/
def logPitch (now : Nat) (saveError : Option String) (w : World) : Outcome :=
  match ensureLiveSelection w.state with
  | some err => .returned (alert err w)
  | none =>
    match w.pending.pitch, w.pending.zone, w.pending.result with
    | some pitch, some zone, some result =>
      if pitch = "" ∨ zone = 0 ∨ result = "" then
        .returned (alert "Pick pitch type, zone, and result first." w)
      else
        match w.state.pitcher with
        | none => .threw "TypeError" w
        | some p =>
          match currentBatter w.state with
          | none => .threw "TypeError" w
          | some batter =>
            let ev : PitchEvent :=
              { t := now, pitcher := p.name, batterId := batter.id,
                pitch := pitch, zone := zone, result := result }
            match saveState saveError
              { w with state := { w.state with pitches := w.state.pitches ++ [ev] } } with
            | .threw e w1 => .threw e w1
            | .returned w1 => .returned (clearPending w1)
    | _, _, _ => .returned (alert "Pick pitch type, zone, and result first." w)

/-- The function `undoLast()`. -/
def undoLast (w : World) : World :=
  if w.state.pitches.length = 0 then w
  else { w with state := { w.state with pitches := w.state.pitches.dropLast } }

/-- The handler `newGameBtn.onclick`; `id` is `newId()` and `now` is `Date.now()`. -/
def newGameBtn_onclick (opponent field id : String) (now : Nat) (w : World) : World :=
  let game : Game :=
    { id := id, opponent := trim opponent, field := trim field, createdAt := now }
  { w with state := { w.state with game := some game } }

/-- The handler `addBatterBtn.onclick`.  `bNum`, `bName` and `bats` are the values of
the three inputs and `freshId` is what `newId()` returns. -/
def addBatterBtn_onclick (bNum bName bats freshId : String) (w : World) : World :=
  if !ensureGame w.state then alert "Start a game first." w
  else
    let num := trim bNum
    let name := trim bName
    if num = "" ∨ isNaN (Number num) = true then alert "Enter a jersey number." w
    else if name = "" then alert "Enter a batter name." w
    else
      let entry : LineupEntry := { id := freshId, num := Number num, name := name, bats := bats }
      let lineup := w.state.lineup ++ [entry]
      let batterId :=
        if !truthyString w.state.batterId then (lineup.getLast?.map LineupEntry.id)
        else w.state.batterId
      { w with state := { w.state with lineup := lineup, batterId := batterId } }

/-- The handler `setPitcherBtn.onclick`; `pName` is the value of the input. -/
def setPitcherBtn_onclick (pName : String) (w : World) : World :=
  if !ensureGame w.state then alert "Start a game first." w
  else
    let name := trim pName
    if name = "" then alert "Enter pitcher name." w
    else { w with state := { w.state with pitcher := some { name := name } } }

/-- The handler `setBatterBtn.onclick`; `id` is the value of the batter dropdown. -/
def setBatterBtn_onclick (id : String) (w : World) : World :=
  if !ensureGame w.state then alert "Start a game first." w
  else if id = "" then alert "Add batters first." w
  else { w with state := { w.state with batterId := some id } }

/-! ## Statistics -/

/-- One record `{ total, strikes, whiffs }` of `byPitch`. -/
structure Counts where
  total : Nat
  strikes : Nat
  whiffs : Nat
  deriving DecidableEq, Repr

/-- The expression `Math.round((numer / denom) * 100)`, kept as the two counts it is
computed from: the floating-point division and rounding are not modelled. -/
structure Percent where
  numer : Nat
  denom : Nat
  deriving DecidableEq, Repr

/-- One row of the per-pitch table: `k`, `v.total`, `sPct`, `wPct`. -/
structure PitchLine where
  pitch : String
  total : Nat
  sPct : Percent
  wPct : Percent
  deriving DecidableEq, Repr

/-- What `renderStats` writes into the stats box when the log is not empty: the
three pills and the table rows. -/
structure StatsBox where
  total : Nat
  strikePct : Percent
  whiffs : Nat
  pitchLines : List PitchLine
  deriving DecidableEq, Repr

/-- The array literal `["CStr","SwStr","Foul","InPlay-Out","1B","2B","3B","HR"]` that
`renderStats` writes out twice. -/
def strikeSet : List String :=
  ["CStr", "SwStr", "Foul", "InPlay-Out", "1B", "2B", "3B", "HR"]

/-- The test `[...].includes(result)` against that array. -/
def isStrike (result : String) : Bool :=
  decide (result ∈ strikeSet)

/-- The test `result === "SwStr"`. -/
def isWhiff (result : String) : Bool :=
  decide (result = "SwStr")

/-- The three statements `total++`, `strikes++` and `whiffs++` for the event `p`. -/
def bump (p : PitchEvent) (c : Counts) : Counts :=
  { total := c.total + 1,
    strikes := if isStrike p.result then c.strikes + 1 else c.strikes,
    whiffs := if isWhiff p.result then c.whiffs + 1 else c.whiffs }

/-- Property names every plain object inherits from `Object.prototype`. -/
def inheritedKeys : List String :=
  ["constructor", "hasOwnProperty", "isPrototypeOf", "propertyIsEnumerable",
   "toLocaleString", "toString", "valueOf", "__proto__", "__defineGetter__",
   "__defineSetter__", "__lookupGetter__", "__lookupSetter__"]

/-- Apply the increments for `p` to the own property `p.pitch`. -/
def bumpKey (p : PitchEvent) : List (String × Counts) → List (String × Counts)
  | [] => []
  | (k, c) :: rest =>
    if k = p.pitch then (k, bump p c) :: rest else (k, c) :: bumpKey p rest

/-- One turn of the loop `for (const p of state.pitches)`.  The object `byPitch` is
the list of its own properties in creation order.  `byPitch[p.pitch]` is truthy when
the key is an own property, and also when it is an inherited name: then no own
property is created and the increments land on the inherited object. -/
def tally (byPitch : List (String × Counts)) (p : PitchEvent) : List (String × Counts) :=
  if byPitch.any (fun e => decide (e.1 = p.pitch)) then bumpKey p byPitch
  else if p.pitch ∈ inheritedKeys then byPitch
  else byPitch ++ [(p.pitch, bump p { total := 0, strikes := 0, whiffs := 0 })]

/-- The object `byPitch` after both loops of `renderStats`. -/
def byPitch (pitches : List PitchEvent) : List (String × Counts) :=
  pitches.foldl tally (PITCH_TYPES.map (fun pt => (pt, { total := 0, strikes := 0, whiffs := 0 })))

/-- Whether a property key is an array index: the canonical decimal form of an
integer below `2^32 - 1`, so digits only and no leading zero except in `"0"`. -/
def isArrayIndex (k : String) : Bool :=
  match k.data with
  | [] => false
  | c :: cs =>
    (c :: cs).all (isDigitOfBase 10) && (decide (c ≠ '0') || cs.isEmpty) &&
      decide (natOfDigits 10 (c :: cs) < 2 ^ 32 - 1)

/-- The number an array-index key stands for. -/
def indexOfKey (k : String) : Nat :=
  natOfDigits 10 k.data

/-- The call `Object.entries(o)` on the own properties of `o`, given in creation
order: the array-index keys come first, in ascending numeric order, then the other
keys in creation order. -/
def objectEntries (own : List (String × Counts)) : List (String × Counts) :=
  (own.filter (fun e => isArrayIndex e.1)).insertionSort
      (fun a b => indexOfKey a.1 ≤ indexOfKey b.1) ++
    own.filter (fun e => !isArrayIndex e.1)

/-- The entries `Object.entries(byPitch).filter(([k,v]) => v.total > 0)`. -/
def pitchRows (pitches : List PitchEvent) : List (String × Counts) :=
  (objectEntries (byPitch pitches)).filter (fun e => decide (e.2.total > 0))

/-- The function `renderStats`: `none` is the text "No pitches yet.", written before
anything is counted or divided.  The unused local `fps` is left out. -/
def renderStats (state : State) : Option StatsBox :=
  if state.pitches.length = 0 then none
  else
    let total := state.pitches.length
    let strikes := (state.pitches.filter (fun p => isStrike p.result)).length
    let whiffs := (state.pitches.filter (fun p => isWhiff p.result)).length
    some
      { total := total,
        strikePct := { numer := strikes, denom := total },
        whiffs := whiffs,
        pitchLines := (pitchRows state.pitches).map (fun e =>
          { pitch := e.1, total := e.2.total,
            sPct := { numer := e.2.strikes, denom := e.2.total },
            wPct := { numer := e.2.whiffs, denom := e.2.total } }) }

/-- The counts the breakdown is specified to hold for pitch type `k`: the events of
that type, those among them whose result is in the strike set, and those whose result
is `SwStr`. -/
def countsFor (k : String) (log : List PitchEvent) : Counts :=
  { total := log.countP (fun p => decide (p.pitch = k)),
    strikes := log.countP (fun p => decide (p.pitch = k ∧ p.result ∈ strikeSet)),
    whiffs := log.countP (fun p => decide (p.pitch = k ∧ p.result = "SwStr")) }

/-- The specification's test on a jersey number: a positive integer. -/
def isPositiveInteger : JSNumber → Bool
  | .decimal false m e => decide (m ≠ 0 ∧ (0 ≤ e ∨ m % 10 ^ (-e).toNat = 0))
  | _ => false

/-! ## Sample sessions -/

/-- The session on first launch: default state, nothing pending, no alert shown. -/
def freshWorld : World :=
  { state := defaultState, pending := { pitch := none, zone := none, result := none },
    alerts := [] }

/-- The session `freshWorld` after New Game. -/
def gameWorld : World :=
  newGameBtn_onclick "Tigers" "Home" "g1" 10 freshWorld

/-- A session read back from storage with a batter in the lineup and no game. -/
def noGameWorld : World :=
  { freshWorld with state := { defaultState with
      lineup := [{ id := "b1", num := .decimal false 7 0, name := "Smith", bats := "Right" }] } }

/-- A log as `loadState` can read it back from storage: its one event has the pitch
type `"toString"`. -/
def inheritedLog : List PitchEvent :=
  [{ t := 1, pitcher := "Ace", batterId := "b1", pitch := "toString", zone := 5,
     result := "SwStr" }]

/-- A log with the pitch types `"FB"` and `"7"`, the second an array index. -/
def indexLog : List PitchEvent :=
  [{ t := 1, pitcher := "Ace", batterId := "b1", pitch := "FB", zone := 1, result := "Ball" },
   { t := 2, pitcher := "Ace", batterId := "b1", pitch := "7", zone := 5, result := "SwStr" }]

/-- The log `[FB/Ball, FB/SwStr, CH/1B]`. -/
def statsLog : List PitchEvent :=
  [{ t := 1, pitcher := "Ace", batterId := "b1", pitch := "FB", zone := 1, result := "Ball" },
   { t := 2, pitcher := "Ace", batterId := "b1", pitch := "FB", zone := 5, result := "SwStr" },
   { t := 3, pitcher := "Ace", batterId := "b1", pitch := "CH", zone := 9, result := "1B" }]

/-- A session ready for a pitch: game started, one batter who is active, a pitcher,
and a complete pending selection. -/
def liveWorld : World :=
  { state :=
      { game := some { id := "g1", opponent := "Tigers", field := "Home", createdAt := 10 },
        lineup := [{ id := "b1", num := .decimal false 7 0, name := "Smith", bats := "Right" }],
        pitcher := some { name := "Ace" },
        batterId := some "b1",
        pitches := [] },
    pending := { pitch := some "FB", zone := some 5, result := some "Ball" },
    alerts := [] }

/-- The session `liveWorld` after one pitch logged at time 1000. -/
def loggedWorld : World :=
  { state := { liveWorld.state with pitches :=
      [{ t := 1000, pitcher := "Ace", batterId := "b1", pitch := "FB", zone := 5,
         result := "Ball" }] },
    pending := { pitch := none, zone := none, result := none },
    alerts := [] }

/-- A session as `loadState` can read it back from storage: the active batter id
`"gone"` names no lineup entry. -/
def danglingWorld : World :=
  { state := { liveWorld.state with batterId := some "gone" },
    pending := { pitch := some "FB", zone := some 5, result := some "Ball" },
    alerts := [] }

/-! ## Lemmas on the helpers -/

theorem ensureLiveSelection_eq_none (s : State) (p : Pitcher) (id : String)
    (hp : s.pitcher = some p) (hname : p.name ≠ "") (hb : s.batterId = some id)
    (hid : id ≠ "") : ensureLiveSelection s = none := by
  simp [ensureLiveSelection, truthyString, hp, hb, hname, hid]

theorem currentBatter_of_mem (s : State) (id : String) (hb : s.batterId = some id)
    (hmem : ∃ b ∈ s.lineup, b.id = id) :
    ∃ b, currentBatter s = some b ∧ b.id = id := by
  obtain ⟨b0, hb0, hid0⟩ := hmem
  have hsome : (currentBatter s).isSome = true := by
    unfold currentBatter
    rw [List.find?_isSome]
    exact ⟨b0, hb0, by simp [hb, hid0]⟩
  obtain ⟨b, hfind⟩ := Option.isSome_iff_exists.mp hsome
  refine ⟨b, hfind, ?_⟩
  have h := List.find?_some hfind
  simpa [hb] using h

theorem currentBatter_eq_none (s : State)
    (h : ∀ b ∈ s.lineup, some b.id ≠ s.batterId) : currentBatter s = none := by
  unfold currentBatter
  rw [List.find?_eq_none]
  intro b hb
  simpa using h b hb

theorem logPitch_ready (now : Nat) (saveError : Option String) (w : World) (p : Pitcher)
    (id pitch result : String) (zone : Nat)
    (hp : w.state.pitcher = some p) (hname : p.name ≠ "")
    (hb : w.state.batterId = some id) (hid : id ≠ "")
    (hmem : ∃ b ∈ w.state.lineup, b.id = id)
    (hpend : w.pending = ⟨some pitch, some zone, some result⟩)
    (hpitch : pitch ≠ "") (hzone : zone ≠ 0) (hresult : result ≠ "") :
    logPitch now saveError w =
      match saveError with
      | none => .returned
          { state := { w.state with pitches := w.state.pitches ++
              [{ t := now, pitcher := p.name, batterId := id, pitch := pitch, zone := zone,
                 result := result }] },
            pending := ⟨none, none, none⟩, alerts := w.alerts }
      | some e => .threw e
          { state := { w.state with pitches := w.state.pitches ++
              [{ t := now, pitcher := p.name, batterId := id, pitch := pitch, zone := zone,
                 result := result }] },
            pending := w.pending, alerts := w.alerts } := by
  obtain ⟨b, hcur, hbid⟩ := currentBatter_of_mem w.state id hb hmem
  have hlive := ensureLiveSelection_eq_none w.state p id hp hname hb hid
  simp only [logPitch, hlive, hpend, hp, hcur]
  cases saveError <;> simp [hpitch, hzone, hresult, clearPending, saveState, hbid, ← hpend]

/-! ## Logging and undoing a pitch -/

/-- C1: when the pitcher is unset (`null`, or a record with an empty name) or the active
batter id is unset (`null` or empty), `logPitch` returns after one alert naming the
missing selection, whatever the pending selection is; the log has the same entries and
length, and the whole state and the pending selection are unchanged. -/
theorem logPitch_unset_fails (now : Nat) (saveError : Option String) (w : World)
    (h : (∀ p, w.state.pitcher = some p → p.name = "") ∨
      w.state.batterId = none ∨ w.state.batterId = some "") :
    ∃ msg w', logPitch now saveError w = .returned w' ∧
      (msg = "Set a pitcher first." ∨ msg = "Set a batter first.") ∧
      w'.alerts = w.alerts ++ [msg] ∧
      w'.state.pitches = w.state.pitches ∧
      w'.state.pitches.length = w.state.pitches.length ∧
      w'.state = w.state ∧ w'.pending = w.pending := by
  have herr : ∃ msg, ensureLiveSelection w.state = some msg ∧
      (msg = "Set a pitcher first." ∨ msg = "Set a batter first.") := by
    unfold ensureLiveSelection
    by_cases hp : truthyString (w.state.pitcher.map Pitcher.name) = true
    · have hb : truthyString w.state.batterId = false := by
        rcases h with h | h | h
        · cases hpit : w.state.pitcher with
          | none => simp [hpit, truthyString] at hp
          | some p => simp [hpit, truthyString, h p hpit] at hp
        · simp [h, truthyString]
        · simp [h, truthyString]
      exact ⟨"Set a batter first.", by simp [hp, hb], Or.inr rfl⟩
    · exact ⟨"Set a pitcher first.", by simp [hp], Or.inl rfl⟩
  obtain ⟨msg, hmsg, hkind⟩ := herr
  refine ⟨msg, alert msg w, ?_, hkind, rfl, rfl, rfl, rfl, rfl⟩
  simp [logPitch, hmsg]

theorem logPitch_unset_fails_witness :
    ∃ msg w', logPitch 5 none ⟨defaultState, ⟨some "FB", some 5, some "Ball"⟩, []⟩ =
        .returned w' ∧
      (msg = "Set a pitcher first." ∨ msg = "Set a batter first.") ∧
      w'.alerts = [] ++ [msg] ∧
      w'.state.pitches = [] ∧
      w'.state.pitches.length = 0 ∧
      w'.state = defaultState ∧ w'.pending = ⟨some "FB", some 5, some "Ball"⟩ :=
  logPitch_unset_fails 5 none ⟨defaultState, ⟨some "FB", some 5, some "Ball"⟩, []⟩
    (Or.inr (Or.inl rfl))

/-- C3, amended: with a pitcher of non-empty name, a non-empty active batter id that some
lineup entry carries, and a pending selection whose pitch type, zone and result are all
chosen, `logPitch` appends exactly one event after the old log; the event carries the
time, the pitcher name, the active batter id and the three pending values; game,
lineup, pitcher and active batter id are unchanged and no alert is shown.  When the
write to storage goes through, the call returns and the pending selection is reset to
nothing chosen.  When the write throws, that exception escapes the call, the appended
event stays in the log and the pending selection is left as it was. -/
theorem logPitch_appends (now : Nat) (w : World) (p : Pitcher) (id pitch result : String)
    (zone : Nat)
    (hp : w.state.pitcher = some p) (hname : p.name ≠ "")
    (hb : w.state.batterId = some id) (hid : id ≠ "")
    (hmem : ∃ b ∈ w.state.lineup, b.id = id)
    (hpend : w.pending = ⟨some pitch, some zone, some result⟩)
    (hpitch : pitch ≠ "") (hzone : zone ≠ 0) (hresult : result ≠ "") :
    (∃ w', logPitch now none w = .returned w' ∧
      w'.state.pitches = w.state.pitches ++
        [{ t := now, pitcher := p.name, batterId := id, pitch := pitch, zone := zone,
           result := result }] ∧
      w'.state.game = w.state.game ∧ w'.state.lineup = w.state.lineup ∧
      w'.state.pitcher = w.state.pitcher ∧ w'.state.batterId = w.state.batterId ∧
      w'.pending = ⟨none, none, none⟩ ∧ w'.alerts = w.alerts) ∧
    (∀ e, ∃ w', logPitch now (some e) w = .threw e w' ∧
      w'.state.pitches = w.state.pitches ++
        [{ t := now, pitcher := p.name, batterId := id, pitch := pitch, zone := zone,
           result := result }] ∧
      w'.state.game = w.state.game ∧ w'.state.lineup = w.state.lineup ∧
      w'.state.pitcher = w.state.pitcher ∧ w'.state.batterId = w.state.batterId ∧
      w'.pending = w.pending ∧ w'.alerts = w.alerts) := by
  constructor
  · exact ⟨_, logPitch_ready now none w p id pitch result zone hp hname hb hid hmem hpend
      hpitch hzone hresult, rfl, rfl, rfl, rfl, rfl, rfl, rfl⟩
  · intro e
    exact ⟨_, logPitch_ready now (some e) w p id pitch result zone hp hname hb hid hmem hpend
      hpitch hzone hresult, rfl, rfl, rfl, rfl, rfl, rfl, rfl⟩

theorem logPitch_appends_witness :
    (∃ w', logPitch 1000 none liveWorld = .returned w' ∧
      w'.state.pitches = liveWorld.state.pitches ++
        [{ t := 1000, pitcher := "Ace", batterId := "b1", pitch := "FB", zone := 5,
           result := "Ball" }] ∧
      w'.state.game = liveWorld.state.game ∧ w'.state.lineup = liveWorld.state.lineup ∧
      w'.state.pitcher = liveWorld.state.pitcher ∧
      w'.state.batterId = liveWorld.state.batterId ∧
      w'.pending = ⟨none, none, none⟩ ∧ w'.alerts = liveWorld.alerts) ∧
    (∀ e, ∃ w', logPitch 1000 (some e) liveWorld = .threw e w' ∧
      w'.state.pitches = liveWorld.state.pitches ++
        [{ t := 1000, pitcher := "Ace", batterId := "b1", pitch := "FB", zone := 5,
           result := "Ball" }] ∧
      w'.state.game = liveWorld.state.game ∧ w'.state.lineup = liveWorld.state.lineup ∧
      w'.state.pitcher = liveWorld.state.pitcher ∧
      w'.state.batterId = liveWorld.state.batterId ∧
      w'.pending = liveWorld.pending ∧ w'.alerts = liveWorld.alerts) :=
  logPitch_appends 1000 liveWorld { name := "Ace" } "b1" "FB" "Ball" 5 rfl (by decide) rfl
    (by decide) ⟨_, List.mem_singleton.mpr rfl, rfl⟩ rfl (by decide) (by decide) (by decide)

/-- C3 as stated fails when the write to storage throws: on a session with pitcher,
active batter and a complete pending selection, the exception escapes `logPitch` with
the event appended and the pending selection still FB, 5, Ball, not reset. -/
theorem logPitch_unsaved_keeps_pending :
    logPitch 1000 (some "QuotaExceededError") liveWorld =
        .threw "QuotaExceededError"
          { state := loggedWorld.state, pending := liveWorld.pending, alerts := [] } ∧
      liveWorld.pending = ⟨some "FB", some 5, some "Ball"⟩ ∧
      liveWorld.pending ≠ ⟨none, none, none⟩ := by
  decide

/-- C2: if `logPitch` returns without showing an alert, then `undoLast` on the world it
leaves gives back the state it started from: same log (entries, order, length), same
game, lineup, pitcher and active batter id. -/
theorem undoLast_logPitch (now : Nat) (saveError : Option String) (w w' : World)
    (h : logPitch now saveError w = .returned w') (hok : w'.alerts = w.alerts) :
    (undoLast w').state.pitches = w.state.pitches ∧
      (undoLast w').state.pitches.length = w.state.pitches.length ∧
      (undoLast w').state = w.state := by
  have hstate : (undoLast w').state = w.state := by
    unfold logPitch at h
    split at h
    · cases h
      simp [alert] at hok
    · split at h
      · split at h
        · cases h
          simp [alert] at hok
        · split at h
          · cases h
          · split at h
            · cases h
            · cases saveError with
              | some e => simp [saveState] at h
              | none =>
                simp only [saveState] at h
                cases h
                simp [undoLast, clearPending]
      · cases h
        simp [alert] at hok
  rw [hstate]
  exact ⟨rfl, rfl, rfl⟩

theorem undoLast_logPitch_witness :
    logPitch 1000 none liveWorld = .returned loggedWorld ∧
      loggedWorld.alerts = liveWorld.alerts ∧
      (undoLast loggedWorld).state.pitches = liveWorld.state.pitches ∧
      (undoLast loggedWorld).state.pitches.length = liveWorld.state.pitches.length ∧
      (undoLast loggedWorld).state = liveWorld.state :=
  ⟨by decide, rfl, undoLast_logPitch 1000 none liveWorld loggedWorld (by decide) rfl⟩

/-- C10: on a state whose non-empty active batter id names no lineup entry,
`currentBatter` returns `null`; with a pitcher set and a complete pending selection
`logPitch` then reads `batter.id` on that `null`, so the call ends in a `TypeError`.
The event log, the rest of the state and the pending selection are as before. -/
theorem logPitch_dangling_throws (now : Nat) (saveError : Option String) (w : World)
    (p : Pitcher) (id pitch result : String) (zone : Nat)
    (hp : w.state.pitcher = some p) (hname : p.name ≠ "")
    (hb : w.state.batterId = some id) (hid : id ≠ "")
    (hdangling : ∀ b ∈ w.state.lineup, b.id ≠ id)
    (hpend : w.pending = ⟨some pitch, some zone, some result⟩)
    (hpitch : pitch ≠ "") (hzone : zone ≠ 0) (hresult : result ≠ "") :
    currentBatter w.state = none ∧ logPitch now saveError w = .threw "TypeError" w := by
  have hcur : currentBatter w.state = none := by
    apply currentBatter_eq_none
    intro b hmem heq
    rw [hb] at heq
    exact hdangling b hmem (Option.some.inj heq)
  have hlive := ensureLiveSelection_eq_none w.state p id hp hname hb hid
  refine ⟨hcur, ?_⟩
  simp only [logPitch, hlive, hpend, hp, hcur]
  simp [hpitch, hzone, hresult]

theorem logPitch_dangling_throws_witness :
    currentBatter danglingWorld.state = none ∧
      logPitch 1000 none danglingWorld = .threw "TypeError" danglingWorld :=
  logPitch_dangling_throws 1000 none danglingWorld { name := "Ace" } "gone" "FB" "Ball" 5 rfl
    (by decide) rfl (by decide) (by decide) rfl (by decide) (by decide) (by decide)

/-! ## Removing a batter -/

/-- C9: `removeBatter(id)` keeps, in order, exactly the lineup entries whose identifier
is not `id`; it changes nothing in the lineup when no entry has that identifier, and a
second call changes nothing more; the active batter id becomes `null` if it was `id`
and is unchanged otherwise; the event log (events of that batter included), the game
and the pitcher are unchanged. -/
theorem removeBatter_frame (id : String) (w : World) :
    (removeBatter id w).state.lineup = w.state.lineup.filter (fun b => decide (b.id ≠ id)) ∧
      (∀ b, b ∈ (removeBatter id w).state.lineup ↔ b ∈ w.state.lineup ∧ b.id ≠ id) ∧
      (removeBatter id w).state.lineup.Sublist w.state.lineup ∧
      ((∀ b ∈ w.state.lineup, b.id ≠ id) →
        (removeBatter id w).state.lineup = w.state.lineup) ∧
      removeBatter id (removeBatter id w) = removeBatter id w ∧
      (w.state.batterId = some id → (removeBatter id w).state.batterId = none) ∧
      (w.state.batterId ≠ some id →
        (removeBatter id w).state.batterId = w.state.batterId) ∧
      (removeBatter id w).state.pitches = w.state.pitches ∧
      (removeBatter id w).state.game = w.state.game ∧
      (removeBatter id w).state.pitcher = w.state.pitcher := by
  refine ⟨rfl, ?_, ?_, ?_, ?_, ?_, ?_, rfl, rfl, rfl⟩
  · intro b
    simp [removeBatter, List.mem_filter]
  · exact List.filter_sublist _
  · intro h
    simp only [removeBatter]
    rw [List.filter_eq_self]
    intro b hb
    simpa using h b hb
  · simp only [removeBatter, List.filter_filter, Bool.and_self]
    by_cases h : w.state.batterId = some id <;> simp [h]
  · intro h
    simp [removeBatter, h]
  · intro h
    simp [removeBatter, h]

theorem removeBatter_frame_witness :
    (removeBatter "b1" loggedWorld).state.lineup = [] ∧
      (removeBatter "b1" loggedWorld).state.batterId = none ∧
      (removeBatter "b1" loggedWorld).state.pitches =
        [{ t := 1000, pitcher := "Ace", batterId := "b1", pitch := "FB", zone := 5,
           result := "Ball" }] ∧
      (removeBatter "zz" loggedWorld).state.lineup = loggedWorld.state.lineup ∧
      (removeBatter "zz" loggedWorld).state.batterId = some "b1" :=
  ⟨by decide, (removeBatter_frame "b1" loggedWorld).2.2.2.2.2.1 rfl,
    (removeBatter_frame "b1" loggedWorld).2.2.2.2.2.2.2.1,
    (removeBatter_frame "zz" loggedWorld).2.2.2.1 (by decide),
    ((removeBatter_frame "zz" loggedWorld).2.2.2.2.2.2.1 (by decide)).trans rfl⟩

/-! ## Statistics -/

theorem bumpKey_map (p : PitchEvent) (f : String → Counts) (keys : List String)
    (hnd : keys.Nodup) (hmem : p.pitch ∈ keys) :
    bumpKey p (keys.map (fun k => (k, f k))) =
      keys.map (fun k => (k, if k = p.pitch then bump p (f k) else f k)) := by
  induction keys with
  | nil => simp at hmem
  | cons k ks ih =>
    rw [List.nodup_cons] at hnd
    by_cases hk : k = p.pitch
    · have hrest : ∀ k' ∈ ks, k' ≠ p.pitch := by
        intro k' hk' heq
        exact hnd.1 (by rw [hk, ← heq]; exact hk')
      have hmap : ks.map (fun k => (k, if k = p.pitch then bump p (f k) else f k)) =
          ks.map (fun k => (k, f k)) := by
        apply List.map_congr_left
        intro k' hk'
        simp [hrest k' hk']
      simp only [List.map_cons, bumpKey, hk, if_true, hmap]
    · have hmem' : p.pitch ∈ ks := by
        rcases List.mem_cons.mp hmem with h | h
        · exact absurd h.symm hk
        · exact h
      simp only [List.map_cons, bumpKey, hk, if_false, ih hnd.2 hmem']

theorem tally_map (p : PitchEvent) (f : String → Counts) (keys : List String)
    (hnd : keys.Nodup) (hmem : p.pitch ∈ keys) :
    tally (keys.map (fun k => (k, f k))) p =
      keys.map (fun k => (k, if k = p.pitch then bump p (f k) else f k)) := by
  have hany : (keys.map (fun k => (k, f k))).any (fun e => decide (e.1 = p.pitch)) = true := by
    rw [List.any_eq_true]
    exact ⟨(p.pitch, f p.pitch), List.mem_map.mpr ⟨p.pitch, hmem, rfl⟩, by simp⟩
  rw [tally, if_pos hany, bumpKey_map p f keys hnd hmem]

theorem countP_snoc (q : PitchEvent → Bool) (log : List PitchEvent) (p : PitchEvent) :
    (log ++ [p]).countP q = log.countP q + if q p = true then 1 else 0 := by
  rw [List.countP_append, List.countP_cons, List.countP_nil, Nat.zero_add]

theorem countsFor_append (k : String) (log : List PitchEvent) (p : PitchEvent) :
    countsFor k (log ++ [p]) =
      if k = p.pitch then bump p (countsFor k log) else countsFor k log := by
  have hsw : "SwStr" ∈ strikeSet := by decide
  simp only [countsFor, countP_snoc, bump, isStrike, isWhiff]
  by_cases hk : k = p.pitch
  · subst hk
    by_cases hs : p.result ∈ strikeSet
    · by_cases hw : p.result = "SwStr"
      · simp [hw, hsw]
      · simp [hs, hw]
    · have hw : ¬ p.result = "SwStr" := fun hw => hs (hw ▸ hsw)
      simp [hs, hw]
  · have hk' : ¬ p.pitch = k := fun h => hk h.symm
    simp [hk, hk']

theorem countsFor_eq_zero (k : String) (log : List PitchEvent)
    (h : ∀ q ∈ log, q.pitch ≠ k) :
    countsFor k log = { total := 0, strikes := 0, whiffs := 0 } := by
  have h0 : ∀ (f : PitchEvent → Bool), (∀ q ∈ log, f q = true → q.pitch = k) →
      log.countP f = 0 := by
    intro f hf
    rw [List.countP_eq_zero]
    intro q hq hfq
    exact h q hq (hf q hq hfq)
  simp only [countsFor]
  rw [h0 _ (fun q _ hq => by simpa using hq), h0 _ (fun q _ hq => by simp at hq; exact hq.1),
    h0 _ (fun q _ hq => by simp at hq; exact hq.1)]

theorem tally_new (p : PitchEvent) (f : String → Counts) (keys : List String)
    (hmem : p.pitch ∉ keys) (hord : p.pitch ∉ inheritedKeys) :
    tally (keys.map (fun k => (k, f k))) p =
      keys.map (fun k => (k, f k)) ++
        [(p.pitch, bump p { total := 0, strikes := 0, whiffs := 0 })] := by
  have hany : ¬ (keys.map (fun k => (k, f k))).any (fun e => decide (e.1 = p.pitch)) = true := by
    rw [List.any_eq_true]
    rintro ⟨e, he, hk⟩
    obtain ⟨k, hk', rfl⟩ := List.mem_map.mp he
    have hkp : k = p.pitch := by simpa using hk
    exact hmem (hkp ▸ hk')
  rw [tally, if_neg hany, if_neg hord]

/-- The object `byPitch` holds, for the pitch types of `PITCH_TYPES` and those of the
log, each once, the counts of that type. -/
theorem byPitch_eq (log : List PitchEvent) (h : ∀ p ∈ log, p.pitch ∉ inheritedKeys) :
    ∃ keys : List String, keys.Nodup ∧
      (∀ k, k ∈ keys ↔ k ∈ PITCH_TYPES ∨ ∃ p ∈ log, p.pitch = k) ∧
      byPitch log = keys.map (fun k => (k, countsFor k log)) := by
  induction log using List.reverseRecOn with
  | nil => exact ⟨PITCH_TYPES, by decide, by simp, rfl⟩
  | append_singleton l p ih =>
    obtain ⟨keys, hnd, hkeys, hby⟩ := ih (fun q hq => h q (by simp [hq]))
    have hstep : byPitch (l ++ [p]) = tally (byPitch l) p := by
      simp [byPitch, List.foldl_append]
    by_cases hp : p.pitch ∈ keys
    · refine ⟨keys, hnd, ?_, ?_⟩
      · intro k
        rw [hkeys k]
        constructor
        · rintro (hk | ⟨q, hq, hqk⟩)
          · exact Or.inl hk
          · exact Or.inr ⟨q, by simp [hq], hqk⟩
        · rintro (hk | ⟨q, hq, hqk⟩)
          · exact Or.inl hk
          · rcases List.mem_append.mp hq with hq | hq
            · exact Or.inr ⟨q, hq, hqk⟩
            · have hqp : q = p := by simpa using hq
              exact (hkeys k).mp (by rw [← hqk, hqp]; exact hp)
      · rw [hstep, hby, tally_map p (fun k => countsFor k l) keys hnd hp]
        apply List.map_congr_left
        intro k _
        rw [countsFor_append]
    · have hfresh : ∀ q ∈ l, q.pitch ≠ p.pitch := by
        intro q hq hqp
        exact hp ((hkeys p.pitch).mpr (Or.inr ⟨q, hq, hqp⟩))
      refine ⟨keys ++ [p.pitch], ?_, ?_, ?_⟩
      · rw [List.nodup_append]
        refine ⟨hnd, List.nodup_singleton _, ?_⟩
        intro k hk hk'
        rw [List.mem_singleton] at hk'
        exact hp (hk' ▸ hk)
      · intro k
        rw [List.mem_append, hkeys k, List.mem_singleton]
        constructor
        · rintro ((hk | ⟨q, hq, hqk⟩) | hk)
          · exact Or.inl hk
          · exact Or.inr ⟨q, by simp [hq], hqk⟩
          · exact Or.inr ⟨p, by simp, hk.symm⟩
        · rintro (hk | ⟨q, hq, hqk⟩)
          · exact Or.inl (Or.inl hk)
          · rcases List.mem_append.mp hq with hq | hq
            · exact Or.inl (Or.inr ⟨q, hq, hqk⟩)
            · have hqp : q = p := by simpa using hq
              exact Or.inr (by rw [← hqk, hqp])
      · rw [hstep, hby, tally_new p (fun k => countsFor k l) keys hp (h p (by simp)),
          List.map_append, List.map_singleton, countsFor_append p.pitch l p, if_pos rfl,
          countsFor_eq_zero p.pitch l hfresh]
        congr 1
        apply List.map_congr_left
        intro k hk
        have hne : k ≠ p.pitch := fun hkp => hp (hkp ▸ hk)
        rw [countsFor_append, if_neg hne]

theorem renderStats_eq_some (state : State) (hne : state.pitches ≠ []) :
    renderStats state = some
      { total := state.pitches.length,
        strikePct :=
          { numer := (state.pitches.filter (fun p => isStrike p.result)).length,
            denom := state.pitches.length },
        whiffs := (state.pitches.filter (fun p => isWhiff p.result)).length,
        pitchLines := (pitchRows state.pitches).map (fun e =>
          { pitch := e.1, total := e.2.total,
            sPct := { numer := e.2.strikes, denom := e.2.total },
            wPct := { numer := e.2.whiffs, denom := e.2.total } }) } := by
  have hlen : ¬ state.pitches.length = 0 := by
    simpa using hne
  simp only [renderStats, hlen, if_false]

theorem objectEntries_perm (own : List (String × Counts)) :
    (objectEntries own).Perm own := by
  unfold objectEntries
  exact ((List.perm_insertionSort _ _).append_right _).trans (List.filter_append_perm _ own)

theorem mem_pitchRows_iff (log : List PitchEvent) (e : String × Counts) :
    e ∈ pitchRows log ↔ e ∈ byPitch log ∧ 0 < e.2.total := by
  rw [pitchRows, List.mem_filter, (objectEntries_perm (byPitch log)).mem_iff]
  simp

theorem bumpKey_keys (p : PitchEvent) (own : List (String × Counts)) :
    (bumpKey p own).map Prod.fst = own.map Prod.fst := by
  induction own with
  | nil => rfl
  | cons e rest ih =>
    obtain ⟨k, c⟩ := e
    by_cases hk : k = p.pitch
    · simp [bumpKey, hk]
    · simp [bumpKey, hk, ih]

/-- No own property of `byPitch` is ever created under an inherited name. -/
theorem byPitch_keys_own (log : List PitchEvent) :
    ∀ k ∈ (byPitch log).map Prod.fst, k ∉ inheritedKeys := by
  induction log using List.reverseRecOn with
  | nil => decide
  | append_singleton l p ih =>
    have hstep : byPitch (l ++ [p]) = tally (byPitch l) p := by
      simp [byPitch, List.foldl_append]
    rw [hstep, tally]
    split
    · rw [bumpKey_keys]
      exact ih
    · split
      · exact ih
      · rename_i hord
        intro k hk
        rw [List.map_append, List.mem_append] at hk
        rcases hk with hk | hk
        · exact ih k hk
        · have hkp : k = p.pitch := by simpa using hk
          rw [hkp]
          exact hord

theorem mem_pitchRows (log : List PitchEvent) (h : ∀ p ∈ log, p.pitch ∉ inheritedKeys)
    (k : String) (c : Counts) :
    (k, c) ∈ pitchRows log ↔ c = countsFor k log ∧ ∃ p ∈ log, p.pitch = k := by
  obtain ⟨keys, -, hkeys, hby⟩ := byPitch_eq log h
  rw [mem_pitchRows_iff, hby, List.mem_map]
  constructor
  · rintro ⟨⟨k', -, heq⟩, hpos⟩
    obtain ⟨rfl, rfl⟩ := Prod.mk.inj heq
    have hpos' : 0 < List.countP (fun p => decide (p.pitch = k')) log := by
      simpa [countsFor] using hpos
    obtain ⟨p, hp, hpk⟩ := List.countP_pos_iff.mp hpos'
    exact ⟨rfl, p, hp, by simpa using hpk⟩
  · rintro ⟨rfl, p, hp, hpk⟩
    refine ⟨⟨k, (hkeys k).mpr (Or.inr ⟨p, hp, hpk⟩), rfl⟩, ?_⟩
    have hpos : 0 < List.countP (fun p => decide (p.pitch = k)) log :=
      List.countP_pos_iff.mpr ⟨p, hp, by simpa using hpk⟩
    simpa [countsFor] using hpos

theorem pitchRows_keys_nodup (log : List PitchEvent)
    (h : ∀ p ∈ log, p.pitch ∉ inheritedKeys) :
    ((pitchRows log).map Prod.fst).Nodup := by
  obtain ⟨keys, hnd, -, hby⟩ := byPitch_eq log h
  have hkeys : (byPitch log).map Prod.fst = keys := by
    rw [hby, List.map_map]
    exact List.map_id _
  have hentries : ((objectEntries (byPitch log)).map Prod.fst).Nodup := by
    rw [((objectEntries_perm (byPitch log)).map Prod.fst).nodup_iff, hkeys]
    exact hnd
  have hsub : ((pitchRows log).map Prod.fst).Sublist
      ((objectEntries (byPitch log)).map Prod.fst) :=
    (List.filter_sublist (p := fun e : String × Counts => decide (e.2.total > 0))
      (objectEntries (byPitch log))).map Prod.fst
  exact hsub.nodup hentries

/-- Where the breakdown is as specified: for every event log none of whose pitch types
is a property name inherited from `Object.prototype` (no type of `PITCH_TYPES` is one),
the rows are one row for each pitch type that occurs in some event and no other row;
the total, strike count and whiff count of the row of type `k` are the number of events
of type `k`, the number of those whose result is in the strike set, and the number of
those whose result is `SwStr`; the empty log gives no row, and the table of a non-empty
log shows these rows. -/
theorem pitchRows_ordinary (state : State)
    (h : ∀ p ∈ state.pitches, p.pitch ∉ inheritedKeys) :
    (∀ k, (∃ c, (k, c) ∈ pitchRows state.pitches) ↔ ∃ p ∈ state.pitches, p.pitch = k) ∧
      ((pitchRows state.pitches).map Prod.fst).Nodup ∧
      (∀ k c, (k, c) ∈ pitchRows state.pitches →
        c.total = state.pitches.countP (fun p => decide (p.pitch = k)) ∧
        c.strikes = state.pitches.countP (fun p => decide (p.pitch = k ∧
          p.result ∈ ["CStr", "SwStr", "Foul", "InPlay-Out", "1B", "2B", "3B", "HR"])) ∧
        c.whiffs = state.pitches.countP (fun p => decide (p.pitch = k ∧ p.result = "SwStr"))) ∧
      (state.pitches = [] → pitchRows state.pitches = [] ∧ renderStats state = none) ∧
      (state.pitches ≠ [] → ∃ box, renderStats state = some box ∧
        box.pitchLines = (pitchRows state.pitches).map (fun e =>
          { pitch := e.1, total := e.2.total,
            sPct := { numer := e.2.strikes, denom := e.2.total },
            wPct := { numer := e.2.whiffs, denom := e.2.total } })) := by
  refine ⟨?_, pitchRows_keys_nodup _ h, ?_, ?_, ?_⟩
  · intro k
    constructor
    · rintro ⟨c, hc⟩
      exact ((mem_pitchRows _ h k c).mp hc).2
    · intro hk
      exact ⟨countsFor k state.pitches, (mem_pitchRows _ h k _).mpr ⟨rfl, hk⟩⟩
  · intro k c hc
    have hc' := ((mem_pitchRows _ h k c).mp hc).1
    subst hc'
    exact ⟨rfl, rfl, rfl⟩
  · intro hnil
    rw [hnil]
    exact ⟨by decide, by simp [renderStats, hnil]⟩
  · intro hne
    exact ⟨_, renderStats_eq_some state hne, rfl⟩

/-- The breakdown of the log `[FB/Ball, FB/SwStr, CH/1B]`, and the row order when a
pitch type is an array index. -/
theorem pitchRows_samples :
    pitchRows statsLog =
        [("FB", { total := 2, strikes := 1, whiffs := 1 }),
         ("CH", { total := 1, strikes := 1, whiffs := 0 })] ∧
      (∀ k, (∃ c, (k, c) ∈ pitchRows statsLog) ↔ ∃ p ∈ statsLog, p.pitch = k) ∧
      pitchRows [] = [] ∧
      pitchRows indexLog =
        [("7", { total := 1, strikes := 1, whiffs := 1 }),
         ("FB", { total := 1, strikes := 0, whiffs := 0 })] :=
  ⟨by decide,
    (pitchRows_ordinary { defaultState with pitches := statsLog } (by decide)).1,
    ((pitchRows_ordinary defaultState (by decide)).2.2.2.1 rfl).1, by decide⟩

/-- C4: the breakdown misses a pitch type whose name every object inherits from
`Object.prototype`, such as `"toString"`.  For every event log and every event of it
with such a pitch type, the type occurs in the log and yet no row of the breakdown
carries it, neither among the entries `renderStats` keeps nor in the table it writes:
`byPitch[p.pitch]` finds the inherited value, so no own property is created for the
type. -/
theorem pitchRows_misses_inherited (state : State) (p : PitchEvent)
    (hp : p ∈ state.pitches) (hk : p.pitch ∈ inheritedKeys) :
    (∃ q ∈ state.pitches, q.pitch = p.pitch) ∧
      (¬ ∃ c, (p.pitch, c) ∈ pitchRows state.pitches) ∧
      ∃ box, renderStats state = some box ∧ ∀ line ∈ box.pitchLines, line.pitch ≠ p.pitch := by
  have hrows : ¬ ∃ c, (p.pitch, c) ∈ pitchRows state.pitches := by
    rintro ⟨c, hc⟩
    have hmem := ((mem_pitchRows_iff state.pitches (p.pitch, c)).mp hc).1
    exact byPitch_keys_own state.pitches p.pitch
      (List.mem_map.mpr ⟨(p.pitch, c), hmem, rfl⟩) hk
  refine ⟨⟨p, hp, rfl⟩, hrows, _, renderStats_eq_some state (List.ne_nil_of_mem hp), ?_⟩
  intro line hline heq
  obtain ⟨e, he, rfl⟩ := List.mem_map.mp hline
  exact hrows ⟨e.2, by simpa [← heq] using he⟩

theorem pitchRows_misses_inherited_witness :
    (∃ q ∈ inheritedLog, q.pitch = "toString") ∧
      (¬ ∃ c, ("toString", c) ∈ pitchRows inheritedLog) ∧
      (∃ box, renderStats { defaultState with pitches := inheritedLog } = some box ∧
        ∀ line ∈ box.pitchLines, line.pitch ≠ "toString") ∧
      pitchRows inheritedLog = [] :=
  ⟨(pitchRows_misses_inherited { defaultState with pitches := inheritedLog }
      { t := 1, pitcher := "Ace", batterId := "b1", pitch := "toString", zone := 5,
        result := "SwStr" } (List.mem_singleton.mpr rfl) (by decide)).1,
    (pitchRows_misses_inherited { defaultState with pitches := inheritedLog }
      { t := 1, pitcher := "Ace", batterId := "b1", pitch := "toString", zone := 5,
        result := "SwStr" } (List.mem_singleton.mpr rfl) (by decide)).2.1,
    (pitchRows_misses_inherited { defaultState with pitches := inheritedLog }
      { t := 1, pitcher := "Ace", batterId := "b1", pitch := "toString", zone := 5,
        result := "SwStr" } (List.mem_singleton.mpr rfl) (by decide)).2.2,
    by decide⟩

theorem strike_or_ball (r : String) (hr : r ∈ RESULTS) :
    (if r ∈ strikeSet then 1 else 0) + (if r = "Ball" then 1 else 0) = 1 := by
  have hall : ∀ x ∈ RESULTS,
      (if x ∈ strikeSet then 1 else 0) + (if x = "Ball" then 1 else 0) = 1 := by decide
  exact hall r hr

theorem strikes_add_balls (log : List PitchEvent) (h : ∀ p ∈ log, p.result ∈ RESULTS) :
    log.countP (fun p => decide (p.result ∈ strikeSet)) +
      log.countP (fun p => decide (p.result = "Ball")) = log.length := by
  induction log with
  | nil => rfl
  | cons p l ih =>
    have hp := strike_or_ball p.result (h p (by simp))
    have hl := ih (fun q hq => h q (by simp [hq]))
    simp only [List.countP_cons, List.length_cons, decide_eq_true_eq]
    omega

/-- C5, amended: for the empty log `renderStats` writes "No pitches yet." and divides
nothing; for every other log the panel shows the total, equal to the number of events,
the strike percentage, computed from the number of events whose result is in the strike
set over that total, and the number of whiffs, the count of events whose result is
`SwStr`, shown as a count and not divided by the total; when every result belongs to
`RESULTS`, the strike count is the total minus the number of `Ball` events. -/
theorem renderStats_aggregate (state : State) :
    (state.pitches = [] → renderStats state = none) ∧
      (state.pitches ≠ [] → ∃ box, renderStats state = some box ∧
        box.total = state.pitches.length ∧
        box.strikePct =
          { numer := state.pitches.countP (fun p => decide (p.result ∈
              ["CStr", "SwStr", "Foul", "InPlay-Out", "1B", "2B", "3B", "HR"])),
            denom := state.pitches.length } ∧
        box.whiffs = state.pitches.countP (fun p => decide (p.result = "SwStr")) ∧
        ((∀ p ∈ state.pitches, p.result ∈ RESULTS) →
          box.strikePct.numer =
            box.total - state.pitches.countP (fun p => decide (p.result = "Ball")))) := by
  constructor
  · intro hnil
    simp [renderStats, hnil]
  · intro hne
    refine ⟨_, renderStats_eq_some state hne, rfl, ?_, ?_, ?_⟩
    · simp only [List.countP_eq_length_filter]
      rfl
    · simp only [List.countP_eq_length_filter]
      rfl
    · intro hres
      have hsum := strikes_add_balls state.pitches hres
      simp only [List.countP_eq_length_filter] at hsum ⊢
      simp only [isStrike]
      omega

theorem renderStats_aggregate_witness :
    ∃ box, renderStats { defaultState with pitches := statsLog } = some box ∧
      box.total = 3 ∧ box.strikePct = { numer := 2, denom := 3 } ∧ box.whiffs = 1 ∧
      renderStats defaultState = none := by
  obtain ⟨box, hbox, htotal, hpct, hwhiffs, -⟩ :=
    (renderStats_aggregate { defaultState with pitches := statsLog }).2 (by decide)
  exact ⟨box, hbox, htotal, hpct, hwhiffs, (renderStats_aggregate defaultState).1 rfl⟩

/-- C5 as stated fails on the whiff figure: for the log `[FB/Ball, FB/SwStr, CH/1B]` the
panel shows the whiff count 1, while the claimed rate is 1/3. -/
theorem renderStats_whiffs_is_count :
    ∃ box, renderStats { defaultState with pitches := statsLog } = some box ∧
      box.whiffs = 1 ∧
      (box.whiffs : ℚ) ≠
        (statsLog.countP (fun p => decide (p.result = "SwStr")) : ℚ) / (statsLog.length : ℚ) := by
  refine ⟨_, renderStats_eq_some _ (by decide), by decide, ?_⟩
  have h1 : statsLog.countP (fun p => decide (p.result = "SwStr")) = 1 := by decide
  have h2 : statsLog.length = 3 := rfl
  have h3 : (List.filter (fun p => isWhiff p.result) statsLog).length = 1 := by decide
  simp only [h1, h2, h3]
  norm_num

/-! ## Adding a batter -/

theorem addBatter_accepts (bNum bName bats freshId : String) (w : World)
    (hgame : w.state.game ≠ none) (hnum : trim bNum ≠ "")
    (hnan : isNaN (Number (trim bNum)) = false) (hname : trim bName ≠ "") :
    addBatterBtn_onclick bNum bName bats freshId w =
      { w with state := { w.state with
          lineup := w.state.lineup ++
            [{ id := freshId, num := Number (trim bNum), name := trim bName, bats := bats }],
          batterId := if truthyString w.state.batterId = true then w.state.batterId
            else some freshId } } := by
  have hg : ensureGame w.state = true := by
    simpa [ensureGame, Option.isSome_iff_ne_none] using hgame
  simp only [addBatterBtn_onclick, hg, hnum, hnan, hname]
  by_cases hb : truthyString w.state.batterId = true <;> simp [hb]

theorem positiveInteger_passes (num : String)
    (h : isPositiveInteger (Number num) = true) :
    num ≠ "" ∧ isNaN (Number num) = false := by
  constructor
  · intro hnum
    rw [hnum] at h
    exact absurd h (by decide)
  · cases hn : Number num with
    | nan => rw [hn] at h; exact absurd h (by decide)
    | infinity b => rfl
    | decimal b m e => rfl

/-- C6, amended: `addBatter` shows one alert and leaves state and pending selection as
they were if no game has been started, or the trimmed number is empty or is not a
numeric string (`Number` gives `NaN`), or the trimmed name is empty; otherwise it shows
no alert and appends a lineup entry with the fresh identifier, the number `Number`
reads, the trimmed name and the handedness. -/
theorem addBatter_validation (bNum bName bats freshId : String) (w : World) :
    ((w.state.game = none ∨ trim bNum = "" ∨ isNaN (Number (trim bNum)) = true ∨
        trim bName = "") →
      ∃ msg, (addBatterBtn_onclick bNum bName bats freshId w).alerts = w.alerts ++ [msg] ∧
        (addBatterBtn_onclick bNum bName bats freshId w).state = w.state ∧
        (addBatterBtn_onclick bNum bName bats freshId w).pending = w.pending) ∧
      (w.state.game ≠ none → trim bNum ≠ "" → isNaN (Number (trim bNum)) = false →
        trim bName ≠ "" →
        (addBatterBtn_onclick bNum bName bats freshId w).state.lineup = w.state.lineup ++
          [{ id := freshId, num := Number (trim bNum), name := trim bName, bats := bats }] ∧
        (addBatterBtn_onclick bNum bName bats freshId w).alerts = w.alerts) := by
  constructor
  · intro h
    by_cases hg : ensureGame w.state = true
    · by_cases hnum : trim bNum = "" ∨ isNaN (Number (trim bNum)) = true
      · exact ⟨"Enter a jersey number.", by simp [addBatterBtn_onclick, hg, hnum, alert]⟩
      · have hname : trim bName = "" := by
          rcases h with h | h | h | h
          · simp [ensureGame, h] at hg
          · exact absurd (Or.inl h) hnum
          · exact absurd (Or.inr h) hnum
          · exact h
        exact ⟨"Enter a batter name.", by simp [addBatterBtn_onclick, hg, hnum, hname, alert]⟩
    · exact ⟨"Start a game first.", by simp [addBatterBtn_onclick, hg, alert]⟩
  · intro hgame hnum hnan hname
    rw [addBatter_accepts bNum bName bats freshId w hgame hnum hnan hname]
    exact ⟨rfl, rfl⟩

theorem addBatter_validation_witness :
    (∃ msg, (addBatterBtn_onclick "seven" "Smith" "Right" "b1" gameWorld).alerts =
        gameWorld.alerts ++ [msg] ∧
      (addBatterBtn_onclick "seven" "Smith" "Right" "b1" gameWorld).state = gameWorld.state ∧
      (addBatterBtn_onclick "seven" "Smith" "Right" "b1" gameWorld).pending =
        gameWorld.pending) ∧
    ((addBatterBtn_onclick " 7" "Smith " "Right" "b1" gameWorld).state.lineup =
        gameWorld.state.lineup ++
          [{ id := "b1", num := Number (trim " 7"), name := trim "Smith ", bats := "Right" }] ∧
      (addBatterBtn_onclick " 7" "Smith " "Right" "b1" gameWorld).alerts = gameWorld.alerts) :=
  ⟨(addBatter_validation "seven" "Smith" "Right" "b1" gameWorld).1
      (Or.inr (Or.inr (Or.inl (by decide)))),
    (addBatter_validation " 7" "Smith " "Right" "b1" gameWorld).2
      (by decide) (by decide) (by decide) (by decide)⟩

/-- C6 as stated fails on the number check: `-3` and `0` are not positive integers,
yet with a game started and the name Smith the handler appends the entry and shows no
alert. -/
theorem addBatter_accepts_nonpositive :
    isPositiveInteger (Number "-3") = false ∧
      (addBatterBtn_onclick "-3" "Smith" "Right" "b1" gameWorld).state.lineup =
        [{ id := "b1", num := .decimal true 3 0, name := "Smith", bats := "Right" }] ∧
      (addBatterBtn_onclick "-3" "Smith" "Right" "b1" gameWorld).alerts = [] ∧
      gameWorld.state.lineup = [] ∧
      isPositiveInteger (Number "0") = false ∧
      (addBatterBtn_onclick "0" "Smith" "Right" "b1" gameWorld).state.lineup =
        [{ id := "b1", num := .decimal false 0 0, name := "Smith", bats := "Right" }] := by
  decide

/-- C7, amended: in a session where a game has been started, for every valid input (the
trimmed number reads as a positive integer, the trimmed name is not empty), `addBatter`
makes the lineup one entry longer, the new entry last and the old entries before it in
their order; the active batter id afterwards is the new entry's identifier if none was
set before (`null` or empty) and the previous one otherwise; the event log, the game
and the pitcher are unchanged. -/
theorem addBatter_appends (bNum bName bats freshId : String) (w : World)
    (hgame : w.state.game ≠ none)
    (hvalid : isPositiveInteger (Number (trim bNum)) = true) (hname : trim bName ≠ "") :
    (addBatterBtn_onclick bNum bName bats freshId w).state.lineup = w.state.lineup ++
        [{ id := freshId, num := Number (trim bNum), name := trim bName, bats := bats }] ∧
      (addBatterBtn_onclick bNum bName bats freshId w).state.lineup.length =
        w.state.lineup.length + 1 ∧
      ((w.state.batterId = none ∨ w.state.batterId = some "") →
        (addBatterBtn_onclick bNum bName bats freshId w).state.batterId = some freshId) ∧
      (w.state.batterId ≠ none → w.state.batterId ≠ some "" →
        (addBatterBtn_onclick bNum bName bats freshId w).state.batterId = w.state.batterId) ∧
      (addBatterBtn_onclick bNum bName bats freshId w).state.pitches = w.state.pitches ∧
      (addBatterBtn_onclick bNum bName bats freshId w).state.game = w.state.game ∧
      (addBatterBtn_onclick bNum bName bats freshId w).state.pitcher = w.state.pitcher := by
  obtain ⟨hnum, hnan⟩ := positiveInteger_passes (trim bNum) hvalid
  rw [addBatter_accepts bNum bName bats freshId w hgame hnum hnan hname]
  refine ⟨rfl, by simp, ?_, ?_, rfl, rfl, rfl⟩
  · intro h
    rcases h with h | h <;> simp [h, truthyString]
  · intro h1 h2
    cases hb : w.state.batterId with
    | none => exact absurd hb h1
    | some id =>
      have hid : id ≠ "" := fun h => h2 (by rw [hb, h])
      simp [truthyString, hid]

theorem addBatter_appends_witness :
    (addBatterBtn_onclick "7" "Smith" "Right" "b1" gameWorld).state.lineup.length = 1 ∧
      (addBatterBtn_onclick "7" "Smith" "Right" "b1" gameWorld).state.batterId = some "b1" ∧
      (addBatterBtn_onclick "9" "Jones" "Left" "b2"
        (addBatterBtn_onclick "7" "Smith" "Right" "b1" gameWorld)).state.lineup.length = 2 ∧
      (addBatterBtn_onclick "9" "Jones" "Left" "b2"
        (addBatterBtn_onclick "7" "Smith" "Right" "b1" gameWorld)).state.batterId =
          some "b1" :=
  ⟨(addBatter_appends "7" "Smith" "Right" "b1" gameWorld (by decide) (by decide)
      (by decide)).2.1,
    (addBatter_appends "7" "Smith" "Right" "b1" gameWorld (by decide) (by decide)
      (by decide)).2.2.1 (Or.inl rfl),
    (addBatter_appends "9" "Jones" "Left" "b2"
      (addBatterBtn_onclick "7" "Smith" "Right" "b1" gameWorld) (by decide) (by decide)
      (by decide)).2.1,
    ((addBatter_appends "9" "Jones" "Left" "b2"
      (addBatterBtn_onclick "7" "Smith" "Right" "b1" gameWorld) (by decide) (by decide)
      (by decide)).2.2.2.1 (by decide) (by decide)).trans (by decide)⟩

/-- C7 as stated fails on the first launch: no game has been started, so the valid
input 7, Smith, Right gets the alert "Start a game first." and the lineup stays
empty with no active batter. -/
theorem addBatter_needs_game :
    freshWorld.state.lineup.length = 0 ∧
      (addBatterBtn_onclick "7" "Smith" "Right" "b1" freshWorld).state.lineup.length = 0 ∧
      (addBatterBtn_onclick "7" "Smith" "Right" "b1" freshWorld).state.batterId = none ∧
      (addBatterBtn_onclick "7" "Smith" "Right" "b1" freshWorld).alerts =
        ["Start a game first."] := by
  decide

/-! ## Choosing the active batter -/

/-- C8, amended: let `id` be a value the batter dropdown can hold, the empty string or
the identifier of a lineup entry.  If no game has been started, or no lineup entry has
the identifier `id`, the handler shows one alert and leaves state and pending selection
as they were, the active batter id included.  If a game has been started and `id` is
not empty, it shows no alert, sets the active batter id to `id` and leaves lineup,
pitcher, game and event log unchanged.  The handler does not look `id` up in the
lineup. -/
theorem setBatter_dropdown (id : String) (w : World)
    (hdrop : id = "" ∨ ∃ b ∈ w.state.lineup, b.id = id) :
    ((w.state.game = none ∨ ¬ ∃ b ∈ w.state.lineup, b.id = id) →
      ∃ msg, (setBatterBtn_onclick id w).alerts = w.alerts ++ [msg] ∧
        (setBatterBtn_onclick id w).state = w.state ∧
        (setBatterBtn_onclick id w).state.batterId = w.state.batterId ∧
        (setBatterBtn_onclick id w).pending = w.pending) ∧
      (w.state.game ≠ none → id ≠ "" →
        (setBatterBtn_onclick id w).state.batterId = some id ∧
        (setBatterBtn_onclick id w).state.lineup = w.state.lineup ∧
        (setBatterBtn_onclick id w).state.pitcher = w.state.pitcher ∧
        (setBatterBtn_onclick id w).state.game = w.state.game ∧
        (setBatterBtn_onclick id w).state.pitches = w.state.pitches ∧
        (setBatterBtn_onclick id w).alerts = w.alerts) := by
  constructor
  · intro h
    by_cases hg : ensureGame w.state = true
    · have hid : id = "" := by
        rcases h with h | h
        · simp [ensureGame, h] at hg
        · rcases hdrop with hd | hd
          · exact hd
          · exact absurd hd h
      exact ⟨"Add batters first.", by simp [setBatterBtn_onclick, hg, hid, alert]⟩
    · exact ⟨"Start a game first.", by simp [setBatterBtn_onclick, hg, alert]⟩
  · intro hgame hid
    have hg : ensureGame w.state = true := by
      simpa [ensureGame, Option.isSome_iff_ne_none] using hgame
    simp [setBatterBtn_onclick, hg, hid]

theorem setBatter_dropdown_witness :
    (∃ msg, (setBatterBtn_onclick "" gameWorld).alerts = gameWorld.alerts ++ [msg] ∧
        (setBatterBtn_onclick "" gameWorld).state = gameWorld.state ∧
        (setBatterBtn_onclick "" gameWorld).state.batterId = gameWorld.state.batterId ∧
        (setBatterBtn_onclick "" gameWorld).pending = gameWorld.pending) ∧
      (setBatterBtn_onclick "b1" loggedWorld).state.batterId = some "b1" ∧
      (setBatterBtn_onclick "b1" loggedWorld).state.pitches = loggedWorld.state.pitches :=
  ⟨(setBatter_dropdown "" gameWorld (Or.inl rfl)).1 (Or.inr (by decide)),
    ((setBatter_dropdown "b1" loggedWorld (Or.inr (by decide))).2 (by decide) (by decide)).1,
    ((setBatter_dropdown "b1" loggedWorld
      (Or.inr (by decide))).2 (by decide) (by decide)).2.2.2.2.1⟩

/-- C8 as stated fails both ways.  With no game started the handler refuses the
identifier of a lineup entry: the active batter id stays `null`.  With a game started
it takes an identifier that no lineup entry has: the active batter id becomes
`"ghost"` and no alert is shown. -/
theorem setBatter_unchecked :
    (∃ b ∈ noGameWorld.state.lineup, b.id = "b1") ∧
      (setBatterBtn_onclick "b1" noGameWorld).state.batterId = none ∧
      (setBatterBtn_onclick "b1" noGameWorld).alerts = ["Start a game first."] ∧
      (∀ b ∈ liveWorld.state.lineup, b.id ≠ "ghost") ∧
      (setBatterBtn_onclick "ghost" liveWorld).state.batterId = some "ghost" ∧
      (setBatterBtn_onclick "ghost" liveWorld).alerts = [] := by
  decide

end PitchTracker
